import Mathlib

/-!
Verification of the console-log metrics extractor
(`get_metrics_from_console_logs.py`).

The Python program is shallowly embedded as follows.

* Log lines are `List Char` (one entry per line of the file, without the
  trailing newline; `.*` in the anchored patterns never matches a newline and
  `$` matches just before the trailing newline, so this is equivalent).
* Each extraction regex in the source has the shape `^LIT(.*)LIT$` with
  exactly one greedy capture group, so a compiled pattern is embedded as a
  literal prefix plus a literal suffix (`PatternDef`); `findall` returning a
  single group is embedded as `matchShaped`.
* The color-code regex `\x1b\[[0-9;]*[a-zA-Z]` and `re.sub` over it are
  embedded directly as the scanner `dropColorF` (the character classes
  `[0-9;]` and `[a-zA-Z]` are disjoint, so the greedy scan without
  backtracking is exact).
* Python `int(...)`/`float(...)` applied to captured strings are embedded as
  `pyParseInt`/`pyParseFloat` (decimal literals with optional surrounding
  whitespace, sign, fraction and exponent; digit-group underscores and
  inf/nan are not modeled).  Exceptions become `Option`.  A Python float
  value is modeled exactly as a scaled decimal `PyFloat` (numerator and
  power-of-ten denominator); no claim depends on IEEE rounding.
* The metric dictionaries `self.metrics["train"]` / `self.metrics["eval"]`
  always hold exactly the keys of the constant registries
  `TRAIN_METRICS_REGEX` / `EVAL_METRICS_REGEX` (plus the `"iteration"` key
  that reconciliation may add to the eval dict), so they are embedded as
  records (`TrainMetrics`, `EvalMetrics`) and the per-line loop over the
  pattern dicts is unrolled over the constant registries in registration
  order.  `metric_dtypes` is likewise constant-folded: every registry tuple
  carries a dtype, so the `"str"` default branch is dead code.
* `pd.DataFrame(data=dict_of_lists)` succeeds iff all lists have one common
  length and raises `ValueError` otherwise; it is embedded as `buildDF`.
* The `try/except` structure of `extract`/`metric_dfs`/`__main__` is
  embedded with `Option`/`Except`: `metric_dfs` returns `none` when either
  DataFrame construction fails (the source's blanket `except` returns a bare
  `None`), `extract` returns `Except.error` when unpacking that `None`
  raises `TypeError`, and the single top-level `try` of `__main__` stops the
  per-file loop at the first raising run (`main_runs`).
-/

/-! ## Character classes and numeric parsing (Python `int()` / `float()`) -/

/-- ASCII decimal digit, via the code point. -/
def isDigitC (c : Char) : Bool := 48 ≤ c.toNat && c.toNat ≤ 57

/-- Whitespace accepted (and stripped) by Python numeric constructors. -/
def isSpaceC (c : Char) : Bool :=
  c.toNat = 32 || c.toNat = 9 || c.toNat = 10 || c.toNat = 13 ||
  c.toNat = 11 || c.toNat = 12

/-- Characters matched by the `[0-9;]` class of the color-code regex. -/
def isParamC (c : Char) : Bool := isDigitC c || c.toNat = 59

/-- Characters matched by the `[a-zA-Z]` class of the color-code regex. -/
def isAlphaC (c : Char) : Bool :=
  (65 ≤ c.toNat && c.toNat ≤ 90) || (97 ≤ c.toNat && c.toNat ≤ 122)

/-- Value of a string of decimal digits. -/
def digitsVal (l : List Char) : Nat :=
  l.foldl (fun a c => 10 * a + (c.toNat - 48)) 0

/-- Strip surrounding whitespace, as Python's numeric constructors do. -/
def stripWS (l : List Char) : List Char :=
  ((l.dropWhile isSpaceC).reverse.dropWhile isSpaceC).reverse

/-- A nonempty all-digit string parses to its decimal value. -/
def decDigits (l : List Char) : Option Nat :=
  if !l.isEmpty && l.all isDigitC then some (digitsVal l) else none

/-- Python `int(s)` on a string: optional whitespace, optional sign, digits.
Returns `none` where `int` raises `ValueError`. -/
def pyParseInt (s : List Char) : Option Int :=
  match stripWS s with
  | '+' :: ds => (decDigits ds).map (fun n => (n : Int))
  | '-' :: ds => (decDigits ds).map (fun n => -(n : Int))
  | ds => (decDigits ds).map (fun n => (n : Int))

/-- Exact value of a Python float literal: `num / 10 ^ tenPow`. -/
structure PyFloat where
  num : Int
  tenPow : Nat
deriving DecidableEq, Repr

/-- Exponent part of a float literal (after `e`/`E`): optional sign, digits. -/
def decExp (l : List Char) : Option Int :=
  match l with
  | '+' :: ds => (decDigits ds).map (fun n => (n : Int))
  | '-' :: ds => (decDigits ds).map (fun n => -(n : Int))
  | ds => (decDigits ds).map (fun n => (n : Int))

/-- Mantissa of a float literal: `digits`, `digits.digits`, `digits.` or
`.digits` (at least one digit overall). -/
def decMantissa (l : List Char) : Option PyFloat :=
  match l.span isDigitC with
  | (ip, []) => if ip.isEmpty then none else some ⟨(digitsVal ip : Int), 0⟩
  | (ip, '.' :: fp) =>
    if fp.all isDigitC && !(ip.isEmpty && fp.isEmpty) then
      some ⟨(digitsVal ip : Int) * (10 : Int) ^ fp.length + (digitsVal fp : Int),
            fp.length⟩
    else none
  | _ => none

/-- Apply a decimal exponent to a mantissa value. -/
def applyExp (m : PyFloat) (e : Int) : PyFloat :=
  if 0 ≤ e then ⟨m.num * (10 : Int) ^ e.toNat, m.tenPow⟩
  else ⟨m.num, m.tenPow + (-e).toNat⟩

/-- Unsigned body of a float literal: mantissa with optional exponent. -/
def decFloatBody (l : List Char) : Option PyFloat :=
  match l.span (fun c => !(c == 'e' || c == 'E')) with
  | (m, []) => decMantissa m
  | (m, _ :: ex) =>
    match decMantissa m, decExp ex with
    | some q, some e => some (applyExp q e)
    | _, _ => none

/-- Python `float(s)` on a finite decimal literal: optional whitespace,
optional sign, mantissa, optional exponent.  Returns `none` where `float`
raises `ValueError`. -/
def pyParseFloat (s : List Char) : Option PyFloat :=
  match stripWS s with
  | '+' :: r => decFloatBody r
  | '-' :: r => (decFloatBody r).map (fun q => ⟨-q.num, q.tenPow⟩)
  | r => decFloatBody r

/-! ## Typed values and `cast_to` -/

/-- A value stored in a metric series: the result of `cast_to` (Python int,
float, the raw string on coercion failure, or `None` for an unknown type). -/
inductive Value
  | VInt : Int → Value
  | VFloat : PyFloat → Value
  | VStr : List Char → Value
  | VNone : Value
deriving DecidableEq, Repr

/-- Dtype strings used by the registries. -/
def intT : String := "int"

/-- Dtype string for floats. -/
def floatT : String := "float"

/-- `MetricsExtractor.cast_to(value, type)`.  The `try/except` around
`int(value)` / `float(value)` becomes a match on the parser's `Option`; the
`logging.warn` calls become the returned warning list; the bare `return` of
the unknown-type branch becomes `Value.VNone`.  Total, hence never raises. -/
def cast_to (value : List Char) (ty : String) : Value × List String :=
  if ty = "int" then
    match pyParseInt value with
    | some n => (Value.VInt n, [])
    | none => (Value.VStr value, ["Could not convert value to int"])
  else if ty = "float" then
    match pyParseFloat value with
    | some q => (Value.VFloat q, [])
    | none => (Value.VStr value, ["Could not convert value to float"])
  else if ty = "str" ∨ ty = "string" then
    (Value.VStr value, [])
  else
    (Value.VNone, ["Could not convert value"])

/-- The value component of `cast_to` (what `get_regex_groups` appends). -/
def castV (ty : String) (g : List Char) : Value := (cast_to g ty).1

/-! ## Anchored single-group regex matching -/

/-- Strip a literal prefix, or fail. -/
def stripLead : List Char → List Char → Option (List Char)
  | [], l => some l
  | _ :: _, [] => none
  | p :: ps, c :: cs => if p = c then stripLead ps cs else none

/-- Strip a literal suffix from the end, or fail.  This is the final match of
the suffix chosen by the greedy group `(.*)` in `^pre(.*)suf$`. -/
def stripTrail (suf l : List Char) : Option (List Char) :=
  (stripLead suf.reverse l.reverse).map List.reverse

/-- A compiled pattern of shape `^pre(.*)suf$`: every extraction regex of the
source has this shape with exactly one capture group. -/
structure PatternDef where
  pre : List Char
  suf : List Char
deriving DecidableEq

/-- `pattern.findall(line)` for a `^pre(.*)suf$` pattern on a single line:
`some group` on a match, `none` otherwise. -/
def matchShaped (p : PatternDef) (line : List Char) : Option (List Char) :=
  (stripLead p.pre line).bind (fun rest => stripTrail p.suf rest)

/-! ## Color-code stripping (`clean_stream_from_color_coding`) -/

/-- Try to match `\[[0-9;]*[a-zA-Z]` (the color regex after its initial
escape byte) at the head of `l`; on success return the rest of the input. -/
def csiSplit (l : List Char) : Option (List Char) :=
  match l with
  | '[' :: r =>
    match r.dropWhile isParamC with
    | a :: rest => if isAlphaC a then some rest else none
    | [] => none
  | _ => none

/-- Fueled scanner implementing `re.sub(color_regex, "", line)`: leftmost
non-overlapping matches of `\x1b\[[0-9;]*[a-zA-Z]` are removed.  The fuel
only serves structural recursion; `dropColor` supplies enough of it. -/
def dropColorF : Nat → List Char → List Char
  | 0, l => l
  | _ + 1, [] => []
  | f + 1, c :: rest =>
    if c = '\x1b' then
      match csiSplit rest with
      | some rest' => dropColorF f rest'
      | none => c :: dropColorF f rest
    else c :: dropColorF f rest

/-- `re.sub(color_regex, "", line)`. -/
def dropColor (l : List Char) : List Char := dropColorF l.length l

/-- The module constant `COLOR_CODE_REGEX`. -/
def COLOR_CODE_REGEX : String := "\x1b\\[[0-9;]*[a-zA-Z]"

/-- The documented opt-out value for the color pattern. -/
def EMPTY_PATTERN : String := ""

/-- `clean_stream_from_color_coding` parameterized by the configured pattern
string: the source computes `is_not_clean = (pattern == "")` at construction
and returns the raw line on that fast path; otherwise it removes every
non-overlapping match.  Only the two values actually configurable in the
source (`""` and `COLOR_CODE_REGEX`) are modeled. -/
def clean_stream_cfg (pattern : String) (line : List Char) : List Char :=
  if pattern = EMPTY_PATTERN then line else dropColor line

/-- `self.clean_stream_from_color_coding(line)` with the shipped constant. -/
def clean_stream_from_color_coding (line : List Char) : List Char :=
  clean_stream_cfg COLOR_CODE_REGEX line

/-! ## Pattern registry (module constants) -/

/-- Pattern of `"^ ITERATION (.*)$"`. -/
def iterationPat : PatternDef := ⟨" ITERATION ".data, []⟩

/-- Pattern of `"^# Env\. Steps:   (.*)$"`. -/
def envStepsPat : PatternDef := ⟨"# Env. Steps:   ".data, []⟩

/-- Pattern of `"^# Train Steps:  (.*)$"`. -/
def trainStepsPat : PatternDef := ⟨"# Train Steps:  ".data, []⟩

/-- Pattern of `"^# Collect time: \[(.*)\]s$"`. -/
def collectTimePat : PatternDef := ⟨"# Collect time: [".data, "]s".data⟩

/-- Pattern of `"^# Train time:   \[(.*)\]s$"`. -/
def trainTimePat : PatternDef := ⟨"# Train time:   [".data, "]s".data⟩

/-- Pattern of `"^# Eval time: \[(.*)\]s$"`. -/
def evalTimePat : PatternDef := ⟨"# Eval time: [".data, "]s".data⟩

/-- Pattern of `"^# Eval average return: (.*)$"`. -/
def evalAvgReturnPat : PatternDef := ⟨"# Eval average return: ".data, []⟩

/-- The module constant `TRAIN_METRICS_REGEX`, in registration order. -/
def TRAIN_METRICS_REGEX : List (String × PatternDef × String) :=
  [("iteration", iterationPat, intT),
   ("env_steps", envStepsPat, intT),
   ("train_steps", trainStepsPat, intT),
   ("collect_time", collectTimePat, floatT),
   ("train_time", trainTimePat, floatT)]

/-- The module constant `EVAL_METRICS_REGEX`, in registration order. -/
def EVAL_METRICS_REGEX : List (String × PatternDef × String) :=
  [("eval_time", evalTimePat, floatT),
   ("eval_avg_return", evalAvgReturnPat, floatT)]

/-! ## Extractor state -/

/-- `self.metrics["train"]`: one series per registered train metric. -/
structure TrainMetrics where
  iteration : List Value
  env_steps : List Value
  train_steps : List Value
  collect_time : List Value
  train_time : List Value
deriving DecidableEq

/-- `self.metrics["eval"]`: one series per registered eval metric, plus the
`"iteration"` key that only reconciliation may insert (`none` = key absent). -/
structure EvalMetrics where
  eval_time : List Value
  eval_avg_return : List Value
  iteration : Option (List Value)
deriving DecidableEq

/-- The whole `self.metrics` dictionary. -/
structure XMetrics where
  train : TrainMetrics
  eval : EvalMetrics
deriving DecidableEq

/-- The flags consumed by `extract` (from `argparse`). -/
structure ExtractorCfg where
  eval_start_iter : Int
  eval_interval : Int
  is_show : Bool
  write_dir : String
deriving DecidableEq

/-- One pattern test inside the per-line loop of `get_regex_groups`: on a
match, cast the first group and append it to the series (the append is
unconditional — `cast_to` never raises); on no match the series is left
alone (a DEBUG diagnostic is logged). -/
def stepField (pat : PatternDef) (dty : String) (line : List Char)
    (xs : List Value) : List Value :=
  match matchShaped pat line with
  | some g => xs ++ [castV dty g]
  | none => xs

/-- The inner loop of `get_regex_groups` over `self.patterns["train"]`,
unrolled over the constant registry `TRAIN_METRICS_REGEX` in registration
order, with the dtypes from `self.metric_dtypes`. -/
def processTrain (line : List Char) (m : TrainMetrics) : TrainMetrics :=
  { iteration := stepField iterationPat intT line m.iteration,
    env_steps := stepField envStepsPat intT line m.env_steps,
    train_steps := stepField trainStepsPat intT line m.train_steps,
    collect_time := stepField collectTimePat floatT line m.collect_time,
    train_time := stepField trainTimePat floatT line m.train_time }

/-- The inner loop of `get_regex_groups` over `self.patterns["eval"]`,
unrolled over `EVAL_METRICS_REGEX`.  The `"iteration"` key is not a pattern,
so the scan never touches it. -/
def processEval (line : List Char) (m : EvalMetrics) : EvalMetrics :=
  { eval_time := stepField evalTimePat floatT line m.eval_time,
    eval_avg_return := stepField evalAvgReturnPat floatT line m.eval_avg_return,
    iteration := m.iteration }

/-- Processing of one raw line of the file: clean it, then test every
registered pattern (train dict first, then eval dict). -/
def process_line (st : XMetrics) (raw : List Char) : XMetrics :=
  let line := clean_stream_from_color_coding raw
  { train := processTrain line st.train, eval := processEval line st.eval }

/-- `get_regex_groups`: one pass over the file, every line tested against
every registered pattern. -/
def get_regex_groups (lines : List (List Char)) (st : XMetrics) : XMetrics :=
  lines.foldl process_line st

/-- The `construct_metrics_dict` calls at the top of `extract`: every
registry metric's series is (re)set to the empty list.  The `"iteration"`
key of the eval dict is not in the registry, so it is left as is. -/
def construct_metrics_dicts (m : XMetrics) : XMetrics :=
  { train := ⟨[], [], [], [], []⟩,
    eval := { eval_time := [], eval_avg_return := [], iteration := m.eval.iteration } }

/-! ## Iteration reconciliation -/

/-- Number of elements of Python `range(start, stop, step)` (CPython's
formula; a zero step, on which CPython raises, yields the empty range and is
never used by the source). -/
def pyRangeLen (start stop step : Int) : Nat :=
  if 0 < step then
    (if start < stop then ((stop - start - 1) / step + 1).toNat else 0)
  else if step < 0 then
    (if stop < start then ((start - stop - 1) / (-step) + 1).toNat else 0)
  else 0

/-- Python `list(range(start, stop, step))`: the i-th element is
`start + i * step`. -/
def pyRange (start stop step : Int) : List Int :=
  (List.range (pyRangeLen start stop step)).map (fun i => start + (i : Int) * step)

/-- The eval-iteration reconciliation of `extract` (spec contract
`reconcile_eval_iterations`): `last = start + count * interval` followed by
`list(range(start, last, interval))`. -/
def reconcile_eval_iterations (eval_sample_count : Nat) (start_iter interval : Int) :
    List Int :=
  pyRange start_iter (start_iter + (eval_sample_count : Int) * interval) interval

/-- The reconciliation block of `extract`: if the two eval series have the
same length, insert the synthesized `"iteration"` series into the eval dict
(its count taken from `eval_avg_return`); otherwise log a warning and leave
the eval dict without an `"iteration"` key. -/
def extract_reconcile (cfg : ExtractorCfg) (m : XMetrics) : XMetrics :=
  if m.eval.eval_time.length = m.eval.eval_avg_return.length then
    let iters := (reconcile_eval_iterations m.eval.eval_avg_return.length
      cfg.eval_start_iter cfg.eval_interval).map Value.VInt
    { m with eval := { m.eval with iteration := some iters } }
  else m

/-- The series-producing part of `extract` run on an extractor whose metrics
dict is `m` (registry setup, scan, reconciliation). -/
def extract_on (cfg : ExtractorCfg) (lines : List (List Char)) (m : XMetrics) :
    XMetrics :=
  extract_reconcile cfg (get_regex_groups lines (construct_metrics_dicts m))

/-- The metrics dict of a freshly constructed extractor. -/
def initXMetrics : XMetrics := ⟨⟨[], [], [], [], []⟩, ⟨[], [], none⟩⟩

/-- Series extraction for a fresh extractor (one per input file). -/
def extract_state (cfg : ExtractorCfg) (lines : List (List Char)) : XMetrics :=
  extract_on cfg lines initXMetrics

/-! ## DataFrame construction (`metric_dfs`) and the main loop -/

/-- A DataFrame, as the column dict it was built from. -/
abbrev Table := List (String × List Value)

/-- The train dict viewed as DataFrame columns, in insertion order. -/
def trainColumns (t : TrainMetrics) : Table :=
  [("iteration", t.iteration), ("env_steps", t.env_steps),
   ("train_steps", t.train_steps), ("collect_time", t.collect_time),
   ("train_time", t.train_time)]

/-- The eval dict viewed as DataFrame columns; the `"iteration"` key, when
present, was inserted last. -/
def evalColumns (e : EvalMetrics) : Table :=
  [("eval_time", e.eval_time), ("eval_avg_return", e.eval_avg_return)] ++
    (match e.iteration with
     | some l => [("iteration", l)]
     | none => [])

/-- Whether all columns share one length. -/
def allSameLength : Table → Bool
  | [] => true
  | (_, v) :: rest => rest.all (fun c => c.2.length == v.length)

/-- `pd.DataFrame(data=cols)`: succeeds iff the columns have equal lengths,
raises `ValueError` (→ `none`) otherwise. -/
def buildDF (cols : Table) : Option Table :=
  if allSameLength cols then some cols else none

/-- `metric_dfs`: builds the train DataFrame then the eval DataFrame inside
one `try`; the blanket `except` turns a failure of either into a bare
`return None`, discarding any DataFrame already built. -/
def metric_dfs (m : XMetrics) : Option (Table × Table) :=
  match buildDF (trainColumns m.train) with
  | none => none
  | some t =>
    match buildDF (evalColumns m.eval) with
    | none => none
    | some e => some (t, e)

/-- `MetricsExtractor.extract` for one file: series extraction, then — only
when plots are shown or written — `self.df["train"], self.df["eval"] =
self.metric_dfs()`, whose unpacking raises `TypeError` when `metric_dfs`
returned `None`. -/
def extract (cfg : ExtractorCfg) (lines : List (List Char)) :
    Except String XMetrics :=
  let m := extract_state cfg lines
  if cfg.is_show ∨ cfg.write_dir ≠ EMPTY_PATTERN then
    match metric_dfs m with
    | none => Except.error ("TypeError: cannot unpack non-iterable NoneType")
    | some _ => Except.ok m
  else Except.ok m

/-- The per-file loop of `__main__`: `for ex in extractors: ex.extract()`,
inside the single top-level `try` whose `except` abandons everything after
the first raising run. -/
def main_runs (cfg : ExtractorCfg) : List (List (List Char)) → List XMetrics
  | [] => []
  | l :: ls =>
    match extract cfg l with
    | Except.ok m => m :: main_runs cfg ls
    | Except.error _ => []

/-! ## Views used by the claims -/

/-- The registered metrics (both categories). -/
inductive RegMetric
  | iteration | env_steps | train_steps | collect_time | train_time
  | eval_time | eval_avg_return
deriving DecidableEq

/-- The compiled pattern of a registered metric. -/
def patOf : RegMetric → PatternDef
  | .iteration => iterationPat
  | .env_steps => envStepsPat
  | .train_steps => trainStepsPat
  | .collect_time => collectTimePat
  | .train_time => trainTimePat
  | .eval_time => evalTimePat
  | .eval_avg_return => evalAvgReturnPat

/-- The series of a registered metric in the metrics dict. -/
def seriesOf (m : XMetrics) : RegMetric → List Value
  | .iteration => m.train.iteration
  | .env_steps => m.train.env_steps
  | .train_steps => m.train.train_steps
  | .collect_time => m.train.collect_time
  | .train_time => m.train.train_time
  | .eval_time => m.eval.eval_time
  | .eval_avg_return => m.eval.eval_avg_return

/-- No escape byte occurs in the line. -/
def noEsc (l : List Char) : Bool := l.all (fun c => !(c == '\x1b'))

/-- The data of one well-formed iteration block: the five metric lines'
captured strings together with the numbers they denote. -/
structure BlockData where
  iterS : List Char
  envS : List Char
  trainS : List Char
  collS : List Char
  timeS : List Char
  iterV : Int
  envV : Int
  trainV : Int
  collV : PyFloat
  timeV : PyFloat

/-- The five lines of a well-formed iteration block, in block order. -/
def blockLines (b : BlockData) : List (List Char) :=
  [" ITERATION ".data ++ b.iterS,
   "# Env. Steps:   ".data ++ b.envS,
   "# Train Steps:  ".data ++ b.trainS,
   "# Collect time: [".data ++ (b.collS ++ "]s".data),
   "# Train time:   [".data ++ (b.timeS ++ "]s".data)]

/-- Well-formedness of a block: each captured string is a numeric literal
denoting the stated number, and contains no escape byte. -/
def WFBlock (b : BlockData) : Prop :=
  pyParseInt b.iterS = some b.iterV ∧ pyParseInt b.envS = some b.envV ∧
  pyParseInt b.trainS = some b.trainV ∧ pyParseFloat b.collS = some b.collV ∧
  pyParseFloat b.timeS = some b.timeV ∧
  noEsc b.iterS = true ∧ noEsc b.envS = true ∧ noEsc b.trainS = true ∧
  noEsc b.collS = true ∧ noEsc b.timeS = true

/-- The log consisting of the given blocks in order. -/
def blocksLog (bs : List BlockData) : List (List Char) :=
  bs.foldr (fun b acc => blockLines b ++ acc) []

/-- A dirty line is the clean line with matches of the color-code pattern
interleaved: `strip` inserts one `\x1b[params letter` match, `keep` keeps a
non-escape character. -/
inductive Interleaved : List Char → List Char → Prop
  | nil : Interleaved [] []
  | keep (c : Char) (hc : c ≠ '\x1b') {d cl : List Char}
      (h : Interleaved d cl) : Interleaved (c :: d) (c :: cl)
  | strip (ps : List Char) (a : Char) (hps : ps.all isParamC = true)
      (ha : isAlphaC a = true) {d cl : List Char}
      (h : Interleaved d cl) : Interleaved ('\x1b' :: '[' :: (ps ++ a :: d)) cl

/-- Two literal strings disagree at some position inside their common length
(so neither extends to a line matched by a pattern anchored on the other). -/
def conflictB : List Char → List Char → Bool
  | p :: ps, c :: cs => p != c || conflictB ps cs
  | _, _ => false

/-- A log whose single train block is complete but whose eval sub-series
have different lengths: three `eval_time` captures, two `eval_avg_return`
captures. -/
def c1Log : List (List Char) :=
  [" ITERATION 1".data,
   "# Env. Steps:   100".data,
   "# Train Steps:  50".data,
   "# Collect time: [1.5]s".data,
   "# Train time:   [2.5]s".data,
   "# Eval time: [1.0]s".data,
   "# Eval time: [2.0]s".data,
   "# Eval time: [3.0]s".data,
   "# Eval average return: 4.0".data,
   "# Eval average return: 5.0".data]

/-- A configuration with plotting enabled (so `extract` builds the tables). -/
def c1Cfg : ExtractorCfg := ⟨-1, 5, true, ""⟩

/-- Same content as `c1Log`: a run whose eval table construction fails. -/
def c5BadLog : List (List Char) :=
  [" ITERATION 1".data,
   "# Env. Steps:   100".data,
   "# Train Steps:  50".data,
   "# Collect time: [1.5]s".data,
   "# Train time:   [2.5]s".data,
   "# Eval time: [1.0]s".data,
   "# Eval time: [2.0]s".data,
   "# Eval time: [3.0]s".data,
   "# Eval average return: 4.0".data,
   "# Eval average return: 5.0".data]

/-- A well-formed run: one complete block, no eval lines. -/
def c5GoodLog : List (List Char) :=
  [" ITERATION 1".data,
   "# Env. Steps:   100".data,
   "# Train Steps:  50".data,
   "# Collect time: [1.5]s".data,
   "# Train time:   [2.5]s".data]

/-- Plotting-enabled configuration for the multi-run scenario. -/
def c5Cfg : ExtractorCfg := ⟨0, 5, true, ""⟩

/-- A clean eval line. -/
def c9Clean : List Char := "# Eval time: [1.0]s".data

/-- The same line prefixed with the CSI sequence `\x1b[0m`. -/
def c9Dirty : List Char := '\x1b' :: '[' :: ('0' :: 'm' :: c9Clean)

/-- A log with train lines only — no eval pattern matches anywhere. -/
def c10Log : List (List Char) :=
  [" ITERATION 0".data, "# Env. Steps:   10".data]

/-- A no-plot configuration. -/
def c10Cfg : ExtractorCfg := ⟨-1, 5, false, ""⟩

/-- First concrete well-formed block for the round-trip witness. -/
def c6b1 : BlockData :=
  ⟨"0".data, "100".data, "50".data, "1.5".data, "2.5".data,
   0, 100, 50, ⟨15, 1⟩, ⟨25, 1⟩⟩

/-- Second concrete well-formed block for the round-trip witness. -/
def c6b2 : BlockData :=
  ⟨"1".data, "200".data, "80".data, "3.25".data, "4.0".data,
   1, 200, 80, ⟨325, 2⟩, ⟨40, 1⟩⟩

/-- Any configuration: the claim is about the train series only. -/
def c6Cfg : ExtractorCfg := ⟨-1, 5, false, ""⟩

/-! ## Helper lemmas: anchored matching -/

/-- Stripping a literal prefix from a line that starts with it. -/
lemma stripLead_self (p l : List Char) : stripLead p (p ++ l) = some l := by
  induction p with
  | nil => rfl
  | cons x xs ih => simp [stripLead, ih]

/-- Stripping a literal suffix from a line that ends with it. -/
lemma stripTrail_self (q s : List Char) : stripTrail q (s ++ q) = some s := by
  simp [stripTrail, List.reverse_append, stripLead_self]

/-- A `^pre(.*)suf$` pattern on a line `pre ++ s ++ suf` captures `s`. -/
lemma matchShaped_self (pre suf s : List Char) :
    matchShaped ⟨pre, suf⟩ (pre ++ (s ++ suf)) = some s := by
  simp [matchShaped, stripLead_self, stripTrail_self]

/-- Suffix-free special case: `^pre(.*)$` on `pre ++ s` captures `s`. -/
lemma matchShaped_noSuf (pre s : List Char) :
    matchShaped ⟨pre, []⟩ (pre ++ s) = some s := by
  have h := matchShaped_self pre [] s
  simpa using h

/-- A conflicting literal prefix never strips, whatever follows. -/
lemma stripLead_conflict (p c t : List Char) (h : conflictB p c = true) :
    stripLead p (c ++ t) = none := by
  induction p generalizing c with
  | nil => cases c <;> simp [conflictB] at h
  | cons x xs ih =>
    cases c with
    | nil => simp [conflictB] at h
    | cons y ys =>
      simp only [conflictB, Bool.or_eq_true, bne_iff_ne, ne_eq] at h
      by_cases hxy : x = y
      · subst hxy
        have h' : conflictB xs ys = true := by
          rcases h with h | h
          · exact absurd rfl h
          · exact h
        simp [stripLead, ih ys h']
      · simp [stripLead, hxy]

/-- A pattern whose prefix conflicts with the line's literal head never
matches, whatever the variable tail is. -/
lemma matchShaped_conflict (pat : PatternDef) (c t : List Char)
    (h : conflictB pat.pre c = true) : matchShaped pat (c ++ t) = none := by
  simp [matchShaped, stripLead_conflict _ _ _ h]

/-- Unfolding `stepField` on a match. -/
lemma stepField_some (pat : PatternDef) (dty : String) (line : List Char)
    (xs : List Value) (g : List Char) (h : matchShaped pat line = some g) :
    stepField pat dty line xs = xs ++ [castV dty g] := by
  simp [stepField, h]

/-- Unfolding `stepField` on no match. -/
lemma stepField_none (pat : PatternDef) (dty : String) (line : List Char)
    (xs : List Value) (h : matchShaped pat line = none) :
    stepField pat dty line xs = xs := by
  simp [stepField, h]

/-! ## Helper lemmas: color stripping -/

/-- `dropWhile` bound used for fuel accounting. -/
lemma lenDropWhile_le (p : Char → Bool) (l : List Char) :
    (l.dropWhile p).length ≤ l.length := by
  induction l with
  | nil => simp
  | cons c cs ih =>
    by_cases h : p c
    · simp only [List.dropWhile_cons, h, if_true, List.length_cons]
      omega
    · simp [List.dropWhile_cons, h]

/-- `dropWhile` jumps over a block of satisfying characters. -/
lemma dropWhile_params (ps : List Char) (a : Char) (d : List Char)
    (hps : ps.all isParamC = true) (ha : isParamC a = false) :
    (ps ++ a :: d).dropWhile isParamC = a :: d := by
  induction ps with
  | nil => simp [List.dropWhile_cons, ha]
  | cons x xs ih =>
    simp only [List.all_cons, Bool.and_eq_true] at hps
    simp [List.dropWhile_cons, hps.1, ih hps.2]

/-- The two character classes of the color regex are disjoint. -/
lemma isParamC_of_alphaC (a : Char) (ha : isAlphaC a = true) :
    isParamC a = false := by
  rw [Bool.eq_false_iff]
  intro hp
  simp only [isAlphaC, isParamC, isDigitC, Bool.or_eq_true, Bool.and_eq_true,
    decide_eq_true_eq] at ha hp
  omega

/-- `csiSplit` succeeds exactly on a `[params letter` head. -/
lemma csiSplit_csi (ps : List Char) (a : Char) (d : List Char)
    (hps : ps.all isParamC = true) (ha : isAlphaC a = true) :
    csiSplit ('[' :: (ps ++ a :: d)) = some d := by
  simp [csiSplit, dropWhile_params ps a d hps (isParamC_of_alphaC a ha), ha]

/-- A successful `csiSplit` strictly shrinks the input. -/
lemma csiSplit_lt (l r : List Char) (h : csiSplit l = some r) :
    r.length < l.length := by
  unfold csiSplit at h
  split at h
  · rename_i t
    split at h
    · rename_i a rest heq
      split at h
      · cases h
        have hle := lenDropWhile_le isParamC t
        rw [heq] at hle
        simp only [List.length_cons] at hle ⊢
        omega
      · cases h
    · cases h
  · cases h

/-- The fuel of `dropColorF` is irrelevant once it covers the input length. -/
lemma dropColorF_congr (f : Nat) : ∀ (g : Nat) (l : List Char),
    l.length ≤ f → l.length ≤ g → dropColorF f l = dropColorF g l := by
  induction f with
  | zero =>
    intro g l hf _
    have hl : l = [] := List.eq_nil_of_length_eq_zero (Nat.le_zero.mp hf)
    subst hl
    cases g <;> rfl
  | succ f ih =>
    intro g l hf hg
    cases l with
    | nil => cases g <;> rfl
    | cons c rest =>
      cases g with
      | zero => simp at hg
      | succ g =>
        simp only [List.length_cons] at hf hg
        simp only [dropColorF]
        by_cases hc : c = '\x1b'
        · rcases hs : csiSplit rest with _ | rest'
          · simp only [if_pos hc, hs]
            rw [ih g rest (by omega) (by omega)]
          · have hl := csiSplit_lt rest rest' hs
            simp only [if_pos hc, hs]
            exact ih g rest' (by omega) (by omega)
        · simp only [if_neg hc]
          rw [ih g rest (by omega) (by omega)]

/-- `dropColor` keeps a non-escape head character. -/
lemma dropColor_cons_ne (c : Char) (l : List Char) (h : c ≠ '\x1b') :
    dropColor (c :: l) = c :: dropColor l := by
  simp only [dropColor, List.length_cons, dropColorF, if_neg h]

/-- `dropColor` removes a full color-code match at the head. -/
lemma dropColor_csi (ps : List Char) (a : Char) (d : List Char)
    (hps : ps.all isParamC = true) (ha : isAlphaC a = true) :
    dropColor ('\x1b' :: '[' :: (ps ++ a :: d)) = dropColor d := by
  have hcs : csiSplit ('[' :: (ps ++ a :: d)) = some d := csiSplit_csi ps a d hps ha
  simp only [dropColor, List.length_cons, dropColorF, if_pos rfl, hcs]
  apply dropColorF_congr
  · simp
    omega
  · exact Nat.le_refl _

/-- A line without escape bytes is left unchanged by color stripping. -/
lemma dropColor_noEsc (l : List Char) (h : noEsc l = true) : dropColor l = l := by
  induction l with
  | nil => rfl
  | cons c cs ih =>
    have h1 : c ≠ '\x1b' := by
      intro hc
      subst hc
      simp [noEsc] at h
    have h2 : noEsc cs = true := by
      simp only [noEsc, List.all_cons, Bool.and_eq_true] at h
      exact h.2
    rw [dropColor_cons_ne c cs h1, ih h2]

/-- `noEsc` distributes over append. -/
lemma noEsc_append (a b : List Char) :
    noEsc (a ++ b) = (noEsc a && noEsc b) := by
  simp [noEsc, List.all_append]

/-- The shipped color pattern is not the empty opt-out, so cleaning is
exactly `re.sub` of the color regex. -/
lemma clean_stream_eq_dropColor (l : List Char) :
    clean_stream_from_color_coding l = dropColor l := by
  rw [clean_stream_from_color_coding, clean_stream_cfg, if_neg (by decide)]

/-- Cleaning is the identity on lines without escape bytes. -/
lemma clean_stream_noEsc (l : List Char) (h : noEsc l = true) :
    clean_stream_from_color_coding l = l := by
  rw [clean_stream_eq_dropColor, dropColor_noEsc l h]

/-- `cast_to` with dtype `"int"` on a parseable capture. -/
lemma castV_int (s : List Char) (n : Int) (h : pyParseInt s = some n) :
    castV intT s = Value.VInt n := by
  simp [castV, cast_to, intT, h]

/-- `cast_to` with dtype `"float"` on a parseable capture. -/
lemma castV_float (s : List Char) (q : PyFloat) (h : pyParseFloat s = some q) :
    castV floatT s = Value.VFloat q := by
  simp [castV, cast_to, floatT, h]

/-! ## Helper lemmas: per-line effect of the scan -/

/-- An `ITERATION` line appends exactly one cast value to the `iteration`
series and leaves every other series alone. -/
lemma process_line_iter (st : XMetrics) (s : List Char) (hs : noEsc s = true) :
    process_line st (" ITERATION ".data ++ s) =
      { st with train := { st.train with
        iteration := st.train.iteration ++ [castV intT s] } } := by
  obtain ⟨⟨t1, t2, t3, t4, t5⟩, ⟨e1, e2, e3⟩⟩ := st
  have hcl : clean_stream_from_color_coding (" ITERATION ".data ++ s) =
      " ITERATION ".data ++ s := by
    apply clean_stream_noEsc
    rw [noEsc_append, hs, Bool.and_true]
    decide
  simp only [process_line, hcl, processTrain, processEval]
  rw [stepField_some _ _ _ _ _
        (show matchShaped iterationPat (" ITERATION ".data ++ s) = some s from
          matchShaped_noSuf _ _),
      stepField_none _ _ _ _
        (show matchShaped envStepsPat (" ITERATION ".data ++ s) = none from
          matchShaped_conflict _ _ _ (by decide)),
      stepField_none _ _ _ _
        (show matchShaped trainStepsPat (" ITERATION ".data ++ s) = none from
          matchShaped_conflict _ _ _ (by decide)),
      stepField_none _ _ _ _
        (show matchShaped collectTimePat (" ITERATION ".data ++ s) = none from
          matchShaped_conflict _ _ _ (by decide)),
      stepField_none _ _ _ _
        (show matchShaped trainTimePat (" ITERATION ".data ++ s) = none from
          matchShaped_conflict _ _ _ (by decide)),
      stepField_none _ _ _ _
        (show matchShaped evalTimePat (" ITERATION ".data ++ s) = none from
          matchShaped_conflict _ _ _ (by decide)),
      stepField_none _ _ _ _
        (show matchShaped evalAvgReturnPat (" ITERATION ".data ++ s) = none from
          matchShaped_conflict _ _ _ (by decide))]

/-- An `Env. Steps` line appends exactly one cast value to the `env_steps`
series and leaves every other series alone. -/
lemma process_line_env (st : XMetrics) (s : List Char) (hs : noEsc s = true) :
    process_line st ("# Env. Steps:   ".data ++ s) =
      { st with train := { st.train with
        env_steps := st.train.env_steps ++ [castV intT s] } } := by
  obtain ⟨⟨t1, t2, t3, t4, t5⟩, ⟨e1, e2, e3⟩⟩ := st
  have hcl : clean_stream_from_color_coding ("# Env. Steps:   ".data ++ s) =
      "# Env. Steps:   ".data ++ s := by
    apply clean_stream_noEsc
    rw [noEsc_append, hs, Bool.and_true]
    decide
  simp only [process_line, hcl, processTrain, processEval]
  rw [stepField_none _ _ _ _
        (show matchShaped iterationPat ("# Env. Steps:   ".data ++ s) = none from
          matchShaped_conflict _ _ _ (by decide)),
      stepField_some _ _ _ _ _
        (show matchShaped envStepsPat ("# Env. Steps:   ".data ++ s) = some s from
          matchShaped_noSuf _ _),
      stepField_none _ _ _ _
        (show matchShaped trainStepsPat ("# Env. Steps:   ".data ++ s) = none from
          matchShaped_conflict _ _ _ (by decide)),
      stepField_none _ _ _ _
        (show matchShaped collectTimePat ("# Env. Steps:   ".data ++ s) = none from
          matchShaped_conflict _ _ _ (by decide)),
      stepField_none _ _ _ _
        (show matchShaped trainTimePat ("# Env. Steps:   ".data ++ s) = none from
          matchShaped_conflict _ _ _ (by decide)),
      stepField_none _ _ _ _
        (show matchShaped evalTimePat ("# Env. Steps:   ".data ++ s) = none from
          matchShaped_conflict _ _ _ (by decide)),
      stepField_none _ _ _ _
        (show matchShaped evalAvgReturnPat ("# Env. Steps:   ".data ++ s) = none from
          matchShaped_conflict _ _ _ (by decide))]

/-- A `Train Steps` line appends exactly one cast value to the `train_steps`
series and leaves every other series alone. -/
lemma process_line_tsteps (st : XMetrics) (s : List Char) (hs : noEsc s = true) :
    process_line st ("# Train Steps:  ".data ++ s) =
      { st with train := { st.train with
        train_steps := st.train.train_steps ++ [castV intT s] } } := by
  obtain ⟨⟨t1, t2, t3, t4, t5⟩, ⟨e1, e2, e3⟩⟩ := st
  have hcl : clean_stream_from_color_coding ("# Train Steps:  ".data ++ s) =
      "# Train Steps:  ".data ++ s := by
    apply clean_stream_noEsc
    rw [noEsc_append, hs, Bool.and_true]
    decide
  simp only [process_line, hcl, processTrain, processEval]
  rw [stepField_none _ _ _ _
        (show matchShaped iterationPat ("# Train Steps:  ".data ++ s) = none from
          matchShaped_conflict _ _ _ (by decide)),
      stepField_none _ _ _ _
        (show matchShaped envStepsPat ("# Train Steps:  ".data ++ s) = none from
          matchShaped_conflict _ _ _ (by decide)),
      stepField_some _ _ _ _ _
        (show matchShaped trainStepsPat ("# Train Steps:  ".data ++ s) = some s from
          matchShaped_noSuf _ _),
      stepField_none _ _ _ _
        (show matchShaped collectTimePat ("# Train Steps:  ".data ++ s) = none from
          matchShaped_conflict _ _ _ (by decide)),
      stepField_none _ _ _ _
        (show matchShaped trainTimePat ("# Train Steps:  ".data ++ s) = none from
          matchShaped_conflict _ _ _ (by decide)),
      stepField_none _ _ _ _
        (show matchShaped evalTimePat ("# Train Steps:  ".data ++ s) = none from
          matchShaped_conflict _ _ _ (by decide)),
      stepField_none _ _ _ _
        (show matchShaped evalAvgReturnPat ("# Train Steps:  ".data ++ s) = none from
          matchShaped_conflict _ _ _ (by decide))]

/-- A `Collect time` line appends exactly one cast value to the
`collect_time` series and leaves every other series alone. -/
lemma process_line_coll (st : XMetrics) (s : List Char) (hs : noEsc s = true) :
    process_line st ("# Collect time: [".data ++ (s ++ "]s".data)) =
      { st with train := { st.train with
        collect_time := st.train.collect_time ++ [castV floatT s] } } := by
  obtain ⟨⟨t1, t2, t3, t4, t5⟩, ⟨e1, e2, e3⟩⟩ := st
  have hcl : clean_stream_from_color_coding ("# Collect time: [".data ++ (s ++ "]s".data)) =
      "# Collect time: [".data ++ (s ++ "]s".data) := by
    apply clean_stream_noEsc
    rw [noEsc_append, noEsc_append, hs]
    decide
  simp only [process_line, hcl, processTrain, processEval]
  rw [stepField_none _ _ _ _
        (show matchShaped iterationPat ("# Collect time: [".data ++ (s ++ "]s".data)) = none from
          matchShaped_conflict _ _ _ (by decide)),
      stepField_none _ _ _ _
        (show matchShaped envStepsPat ("# Collect time: [".data ++ (s ++ "]s".data)) = none from
          matchShaped_conflict _ _ _ (by decide)),
      stepField_none _ _ _ _
        (show matchShaped trainStepsPat ("# Collect time: [".data ++ (s ++ "]s".data)) = none from
          matchShaped_conflict _ _ _ (by decide)),
      stepField_some _ _ _ _ _
        (show matchShaped collectTimePat ("# Collect time: [".data ++ (s ++ "]s".data)) = some s from
          matchShaped_self _ _ _),
      stepField_none _ _ _ _
        (show matchShaped trainTimePat ("# Collect time: [".data ++ (s ++ "]s".data)) = none from
          matchShaped_conflict _ _ _ (by decide)),
      stepField_none _ _ _ _
        (show matchShaped evalTimePat ("# Collect time: [".data ++ (s ++ "]s".data)) = none from
          matchShaped_conflict _ _ _ (by decide)),
      stepField_none _ _ _ _
        (show matchShaped evalAvgReturnPat ("# Collect time: [".data ++ (s ++ "]s".data)) = none from
          matchShaped_conflict _ _ _ (by decide))]

/-- A `Train time` line appends exactly one cast value to the `train_time`
series and leaves every other series alone. -/
lemma process_line_ttime (st : XMetrics) (s : List Char) (hs : noEsc s = true) :
    process_line st ("# Train time:   [".data ++ (s ++ "]s".data)) =
      { st with train := { st.train with
        train_time := st.train.train_time ++ [castV floatT s] } } := by
  obtain ⟨⟨t1, t2, t3, t4, t5⟩, ⟨e1, e2, e3⟩⟩ := st
  have hcl : clean_stream_from_color_coding ("# Train time:   [".data ++ (s ++ "]s".data)) =
      "# Train time:   [".data ++ (s ++ "]s".data) := by
    apply clean_stream_noEsc
    rw [noEsc_append, noEsc_append, hs]
    decide
  simp only [process_line, hcl, processTrain, processEval]
  rw [stepField_none _ _ _ _
        (show matchShaped iterationPat ("# Train time:   [".data ++ (s ++ "]s".data)) = none from
          matchShaped_conflict _ _ _ (by decide)),
      stepField_none _ _ _ _
        (show matchShaped envStepsPat ("# Train time:   [".data ++ (s ++ "]s".data)) = none from
          matchShaped_conflict _ _ _ (by decide)),
      stepField_none _ _ _ _
        (show matchShaped trainStepsPat ("# Train time:   [".data ++ (s ++ "]s".data)) = none from
          matchShaped_conflict _ _ _ (by decide)),
      stepField_none _ _ _ _
        (show matchShaped collectTimePat ("# Train time:   [".data ++ (s ++ "]s".data)) = none from
          matchShaped_conflict _ _ _ (by decide)),
      stepField_some _ _ _ _ _
        (show matchShaped trainTimePat ("# Train time:   [".data ++ (s ++ "]s".data)) = some s from
          matchShaped_self _ _ _),
      stepField_none _ _ _ _
        (show matchShaped evalTimePat ("# Train time:   [".data ++ (s ++ "]s".data)) = none from
          matchShaped_conflict _ _ _ (by decide)),
      stepField_none _ _ _ _
        (show matchShaped evalAvgReturnPat ("# Train time:   [".data ++ (s ++ "]s".data)) = none from
          matchShaped_conflict _ _ _ (by decide))]

/-! ## Helper lemmas: whole-scan structure -/

/-- The scan splits over concatenated line lists. -/
lemma get_regex_groups_append (l1 l2 : List (List Char)) (st : XMetrics) :
    get_regex_groups (l1 ++ l2) st = get_regex_groups l2 (get_regex_groups l1 st) := by
  simp [get_regex_groups, List.foldl_append]

/-- Scanning one well-formed block appends exactly one value to each of the
five train series and leaves the eval dict alone. -/
lemma scan_block (st : XMetrics) (b : BlockData) (hb : WFBlock b) :
    get_regex_groups (blockLines b) st =
      { train := { iteration := st.train.iteration ++ [Value.VInt b.iterV],
                   env_steps := st.train.env_steps ++ [Value.VInt b.envV],
                   train_steps := st.train.train_steps ++ [Value.VInt b.trainV],
                   collect_time := st.train.collect_time ++ [Value.VFloat b.collV],
                   train_time := st.train.train_time ++ [Value.VFloat b.timeV] },
        eval := st.eval } := by
  obtain ⟨h1, h2, h3, h4, h5, n1, n2, n3, n4, n5⟩ := hb
  simp only [get_regex_groups, blockLines, List.foldl_cons, List.foldl_nil]
  rw [show (process_line st (" ITERATION ".data ++ b.iterS)) = _ from
        process_line_iter st b.iterS n1]
  rw [process_line_env _ b.envS n2, process_line_tsteps _ b.trainS n3,
      process_line_coll _ b.collS n4, process_line_ttime _ b.timeS n5]
  rw [castV_int _ _ h1, castV_int _ _ h2, castV_int _ _ h3,
      castV_float _ _ h4, castV_float _ _ h5]

/-- Scanning a sequence of well-formed blocks appends the blocks' values, in
block order, to the five train series, leaving the eval dict alone. -/
lemma scan_blocks (bs : List BlockData) (h : ∀ b ∈ bs, WFBlock b) :
    ∀ st : XMetrics,
    get_regex_groups (blocksLog bs) st =
      { train := { iteration := st.train.iteration ++ bs.map (fun b => Value.VInt b.iterV),
                   env_steps := st.train.env_steps ++ bs.map (fun b => Value.VInt b.envV),
                   train_steps := st.train.train_steps ++ bs.map (fun b => Value.VInt b.trainV),
                   collect_time := st.train.collect_time ++ bs.map (fun b => Value.VFloat b.collV),
                   train_time := st.train.train_time ++ bs.map (fun b => Value.VFloat b.timeV) },
        eval := st.eval } := by
  induction bs with
  | nil =>
    intro st
    obtain ⟨⟨t1, t2, t3, t4, t5⟩, e⟩ := st
    simp [blocksLog, get_regex_groups]
  | cons b bs ih =>
    intro st
    have hb : WFBlock b := h b (by simp)
    have hrest : ∀ b' ∈ bs, WFBlock b' := fun b' hb' => h b' (by simp [hb'])
    rw [show blocksLog (b :: bs) = blockLines b ++ blocksLog bs from rfl,
        get_regex_groups_append, scan_block st b hb, ih hrest]
    simp

/-- Reconciliation never touches the train dict. -/
lemma extract_reconcile_train (cfg : ExtractorCfg) (m : XMetrics) :
    (extract_reconcile cfg m).train = m.train := by
  rw [extract_reconcile]
  split <;> rfl

/-- Reconciliation never touches the extracted eval series themselves. -/
lemma extract_reconcile_keeps (cfg : ExtractorCfg) (m : XMetrics) :
    (extract_reconcile cfg m).eval.eval_time = m.eval.eval_time ∧
    (extract_reconcile cfg m).eval.eval_avg_return = m.eval.eval_avg_return := by
  rw [extract_reconcile]
  split <;> exact ⟨rfl, rfl⟩

/-- `process_line` carries the `"iteration"` entry of the eval dict through
unchanged, and the rest of its result does not depend on that entry. -/
lemma process_line_set_iter (st : XMetrics) (raw : List Char)
    (i : Option (List Value)) :
    process_line { st with eval := { st.eval with iteration := i } } raw =
      { process_line st raw with eval :=
          { (process_line st raw).eval with iteration := i } } := by
  obtain ⟨t, ⟨e1, e2, e3⟩⟩ := st
  rfl

/-- The same carrying property for the whole scan. -/
lemma scan_set_iter (lines : List (List Char)) :
    ∀ (st : XMetrics) (i : Option (List Value)),
    get_regex_groups lines { st with eval := { st.eval with iteration := i } } =
      { get_regex_groups lines st with eval :=
          { (get_regex_groups lines st).eval with iteration := i } } := by
  induction lines with
  | nil => intro st i; rfl
  | cons l ls ih =>
    intro st i
    show get_regex_groups ls
        (process_line { st with eval := { st.eval with iteration := i } } l) = _
    rw [process_line_set_iter st l i, ih (process_line st l) i]
    rfl

/-- Characterization of `extract` on an arbitrary pre-state: the series come
from the scan of a freshly reset dict; only the carried-over `"iteration"`
entry of the eval dict can depend on the pre-state, and only when the
reconciliation condition fails. -/
lemma extract_on_eq (cfg : ExtractorCfg) (lines : List (List Char)) (m : XMetrics) :
    extract_on cfg lines m =
      (if (get_regex_groups lines initXMetrics).eval.eval_time.length =
          (get_regex_groups lines initXMetrics).eval.eval_avg_return.length
       then extract_reconcile cfg (get_regex_groups lines initXMetrics)
       else { get_regex_groups lines initXMetrics with
              eval := { (get_regex_groups lines initXMetrics).eval with
                        iteration := m.eval.iteration } }) := by
  rw [extract_on,
      show construct_metrics_dicts m =
        { initXMetrics with eval :=
            { initXMetrics.eval with iteration := m.eval.iteration } } from rfl,
      scan_set_iter]
  by_cases hc : (get_regex_groups lines initXMetrics).eval.eval_time.length =
      (get_regex_groups lines initXMetrics).eval.eval_avg_return.length
  · rw [if_pos hc]
    rw [extract_reconcile, extract_reconcile]
    rw [if_pos (by simpa using hc), if_pos hc]
  · rw [if_neg hc]
    rw [extract_reconcile, if_neg (by simpa using hc)]

/-- An empty sample count reconciles to the empty iteration index. -/
lemma reconcile_zero (a b : Int) : reconcile_eval_iterations 0 a b = [] := by
  simp only [reconcile_eval_iterations, pyRange, pyRangeLen, Nat.cast_zero,
    zero_mul, add_zero, lt_irrefl, if_false]
  split <;> simp

/-- `range(start, start + count*interval, interval)` has exactly `count`
elements when the interval is positive. -/
lemma pyRangeLen_count (count : Nat) (start interval : Int) (h : 0 < interval) :
    pyRangeLen start (start + (count : Int) * interval) interval = count := by
  cases count with
  | zero => simp [pyRangeLen]
  | succ n =>
    have h0 : (0 : Int) < ((n + 1 : Nat) : Int) * interval := by
      apply mul_pos _ h
      omega
    rw [pyRangeLen, if_pos h, if_pos (by linarith [h0])]
    have e1 : start + ((n + 1 : Nat) : Int) * interval - start - 1 =
        (interval - 1) + (n : Int) * interval := by
      push_cast
      ring
    rw [e1, Int.add_mul_ediv_right _ _ (ne_of_gt h),
        Int.ediv_eq_zero_of_lt (by omega) (by omega)]
    omega

/-- A line matching neither eval pattern leaves the whole eval dict alone. -/
lemma process_line_no_eval (st : XMetrics) (raw : List Char)
    (h1 : matchShaped evalTimePat (clean_stream_from_color_coding raw) = none)
    (h2 : matchShaped evalAvgReturnPat (clean_stream_from_color_coding raw) = none) :
    (process_line st raw).eval = st.eval := by
  obtain ⟨t, ⟨e1, e2, e3⟩⟩ := st
  simp only [process_line, processEval]
  rw [stepField_none _ _ _ _ h1, stepField_none _ _ _ _ h2]

/-- A log with no eval matches leaves the whole eval dict alone. -/
lemma scan_no_eval (lines : List (List Char))
    (h : ∀ l ∈ lines,
      matchShaped evalTimePat (clean_stream_from_color_coding l) = none ∧
      matchShaped evalAvgReturnPat (clean_stream_from_color_coding l) = none) :
    ∀ st : XMetrics, (get_regex_groups lines st).eval = st.eval := by
  induction lines with
  | nil => intro st; rfl
  | cons l ls ih =>
    intro st
    have hl := h l (by simp)
    have hrest : ∀ l' ∈ ls,
        matchShaped evalTimePat (clean_stream_from_color_coding l') = none ∧
        matchShaped evalAvgReturnPat (clean_stream_from_color_coding l') = none :=
      fun l' hl' => h l' (by simp [hl'])
    show (get_regex_groups ls (process_line st l)).eval = st.eval
    rw [ih hrest (process_line st l), process_line_no_eval st l hl.1 hl.2]

/-- Interleaving color-code matches does not change the cleaned line. -/
lemma interleaved_dropColor (d cl : List Char) (h : Interleaved d cl) :
    dropColor d = dropColor cl := by
  induction h with
  | nil => rfl
  | keep c hc h ih =>
    rw [dropColor_cons_ne c _ hc, dropColor_cons_ne c _ hc, ih]
  | strip ps a hps ha h ih =>
    rw [dropColor_csi ps a _ hps ha, ih]

/-- A line without escape bytes is interleaved with itself. -/
lemma interleaved_refl : ∀ (cl : List Char), noEsc cl = true → Interleaved cl cl
  | [], _ => .nil
  | c :: cs, h => by
    have h1 : c ≠ '\x1b' := by
      intro hc
      subst hc
      simp [noEsc] at h
    have h2 : noEsc cs = true := by
      simp only [noEsc, List.all_cons, Bool.and_eq_true] at h
      exact h.2
    exact .keep c h1 (interleaved_refl cs h2)

/-! ## Claim theorems -/

/-- C2: for every non-negative eval sample count, every start iteration and
every positive interval, the reconciler produces exactly
`eval_sample_count` integers whose i-th element is `start + i * interval`;
in particular `reconcile_eval_iterations 4 (-1) 5 = [-1, 4, 9, 14]`. -/
theorem c2_reconciler_exact (count : Nat) (start interval : Int)
    (h : 0 < interval) :
    reconcile_eval_iterations count start interval =
      (List.range count).map (fun i => start + (i : Int) * interval) ∧
    reconcile_eval_iterations 4 (-1) 5 = [-1, 4, 9, 14] := by
  constructor
  · rw [reconcile_eval_iterations, pyRange, pyRangeLen_count count start interval h]
  · decide

/-- Witness for C2 at concrete inputs. -/
theorem c2_reconciler_exact_witness :
    reconcile_eval_iterations 3 2 7 =
      (List.range 3).map (fun i => (2 : Int) + (i : Int) * 7) ∧
    reconcile_eval_iterations 4 (-1) 5 = [-1, 4, 9, 14] :=
  c2_reconciler_exact 3 2 7 (by decide)

/-- C3: for every captured string and declared type int or float, `cast_to`
is total (it is a Lean function, hence never raises); when the string parses
under the standard numeric parser for the type it returns exactly that
parse with no diagnostic, and when it does not parse it returns the
original string unchanged together with a WARNING diagnostic. -/
theorem c3_coercion_parse_or_fallback (s : List Char) :
    (∀ n : Int, pyParseInt s = some n → cast_to s intT = (Value.VInt n, [])) ∧
    (pyParseInt s = none →
      cast_to s intT = (Value.VStr s, ["Could not convert value to int"])) ∧
    (∀ q : PyFloat, pyParseFloat s = some q →
      cast_to s floatT = (Value.VFloat q, [])) ∧
    (pyParseFloat s = none →
      cast_to s floatT = (Value.VStr s, ["Could not convert value to float"])) := by
  refine ⟨fun n hn => ?_, fun hn => ?_, fun q hq => ?_, fun hq => ?_⟩
  · simp [cast_to, intT, hn]
  · simp [cast_to, intT, hn]
  · simp [cast_to, intT, floatT, hq]
  · simp [cast_to, intT, floatT, hq]

/-- Witness for C3 at concrete inputs. -/
theorem c3_coercion_parse_or_fallback_witness :
    cast_to (" 12 ".data) intT = (Value.VInt 12, []) ∧
    cast_to ("3.5".data) intT =
      (Value.VStr ("3.5".data), ["Could not convert value to int"]) ∧
    cast_to ("2.5".data) floatT = (Value.VFloat ⟨25, 1⟩, []) ∧
    cast_to ("abc".data) floatT =
      (Value.VStr ("abc".data), ["Could not convert value to float"]) :=
  ⟨(c3_coercion_parse_or_fallback (" 12 ".data)).1 12 (by decide),
   (c3_coercion_parse_or_fallback ("3.5".data)).2.1 (by decide),
   (c3_coercion_parse_or_fallback ("2.5".data)).2.2.1 ⟨25, 1⟩ (by decide),
   (c3_coercion_parse_or_fallback ("abc".data)).2.2.2 (by decide)⟩

/-- C4 counterexample: for a metric declaring the unknown value type
`"bool"`, `cast_to` does emit the diagnostic and yield nil, but the scan
step appends that nil value to the series — the claim's "no value is
appended" is false. -/
theorem c4_counterexample :
    cast_to ("7".data) "bool" = (Value.VNone, ["Could not convert value"]) ∧
    stepField ⟨"Flag: ".data, []⟩ "bool" ("Flag: 7".data) [] = [Value.VNone] ∧
    stepField ⟨"Flag: ".data, []⟩ "bool" ("Flag: 7".data) [] ≠ [] := by
  refine ⟨by decide, by decide, by decide⟩

/-- C4 amended: on a line match whose metric declares a value type outside
int/float/str/string, coercion emits a diagnostic and yields nil with no
parse result, and the scan loop appends that nil value to the metric's
series (the append in `get_regex_groups` is unconditional). -/
theorem c4_unknown_type_appends_nil (pat : PatternDef) (ty : String)
    (line g : List Char) (xs : List Value)
    (hm : matchShaped pat line = some g)
    (h1 : ty ≠ "int") (h2 : ty ≠ "float") (h3 : ty ≠ "str") (h4 : ty ≠ "string") :
    cast_to g ty = (Value.VNone, ["Could not convert value"]) ∧
    stepField pat ty line xs = xs ++ [Value.VNone] := by
  have hc : cast_to g ty = (Value.VNone, ["Could not convert value"]) := by
    rw [cast_to, if_neg h1, if_neg h2, if_neg (by
      intro hor
      rcases hor with h | h
      · exact h3 h
      · exact h4 h)]
  refine ⟨hc, ?_⟩
  rw [stepField_some _ _ _ _ _ hm]
  rw [show castV ty g = Value.VNone from by rw [castV, hc]]

/-- Witness for the amended C4 at concrete inputs. -/
theorem c4_unknown_type_appends_nil_witness :
    cast_to ("9".data) "list" = (Value.VNone, ["Could not convert value"]) ∧
    stepField ⟨"V: ".data, []⟩ "list" ("V: 9".data) [] = [] ++ [Value.VNone] :=
  c4_unknown_type_appends_nil ⟨"V: ".data, []⟩ "list" ("V: 9".data) ("9".data) []
    (by decide) (by decide) (by decide) (by decide) (by decide)

/-- C7: for every registered metric and every input line whose cleaned form
does not match that metric's pattern, processing the line leaves that
metric's series unchanged, whatever the rest of the state and whatever other
metrics match on the same line. -/
theorem c7_no_match_frame (r : RegMetric) (st : XMetrics) (raw : List Char)
    (h : matchShaped (patOf r) (clean_stream_from_color_coding raw) = none) :
    seriesOf (process_line st raw) r = seriesOf st r := by
  obtain ⟨⟨t1, t2, t3, t4, t5⟩, ⟨e1, e2, e3⟩⟩ := st
  cases r <;>
    simp only [patOf] at h <;>
    simp only [seriesOf, process_line, processTrain, processEval] <;>
    exact stepField_none _ _ _ _ h

/-- Witness for C7 at concrete inputs. -/
theorem c7_no_match_frame_witness :
    seriesOf (process_line initXMetrics (" ITERATION 3".data)) RegMetric.eval_time =
      seriesOf initXMetrics RegMetric.eval_time :=
  c7_no_match_frame RegMetric.eval_time initXMetrics (" ITERATION 3".data) (by decide)

/-- C6: for every log consisting of N well-formed iteration blocks in which
the iteration, env_steps, train_steps, collect_time and train_time lines are
all present, extraction yields a train series of length exactly N for each
of those five metrics, whose values equal the literal numbers written in the
blocks, in block order. -/
theorem c6_round_trip (cfg : ExtractorCfg) (bs : List BlockData)
    (h : ∀ b ∈ bs, WFBlock b) :
    (extract_state cfg (blocksLog bs)).train.iteration =
      bs.map (fun b => Value.VInt b.iterV) ∧
    (extract_state cfg (blocksLog bs)).train.env_steps =
      bs.map (fun b => Value.VInt b.envV) ∧
    (extract_state cfg (blocksLog bs)).train.train_steps =
      bs.map (fun b => Value.VInt b.trainV) ∧
    (extract_state cfg (blocksLog bs)).train.collect_time =
      bs.map (fun b => Value.VFloat b.collV) ∧
    (extract_state cfg (blocksLog bs)).train.train_time =
      bs.map (fun b => Value.VFloat b.timeV) ∧
    (extract_state cfg (blocksLog bs)).train.iteration.length = bs.length := by
  have ht : (extract_state cfg (blocksLog bs)).train =
      { iteration := bs.map (fun b => Value.VInt b.iterV),
        env_steps := bs.map (fun b => Value.VInt b.envV),
        train_steps := bs.map (fun b => Value.VInt b.trainV),
        collect_time := bs.map (fun b => Value.VFloat b.collV),
        train_time := bs.map (fun b => Value.VFloat b.timeV) } := by
    rw [extract_state, extract_on, extract_reconcile_train,
        show construct_metrics_dicts initXMetrics = initXMetrics from rfl,
        scan_blocks bs h initXMetrics]
    simp [initXMetrics]
  rw [ht]
  exact ⟨rfl, rfl, rfl, rfl, rfl, by simp⟩

/-- Witness for C6 on a concrete two-block log. -/
theorem c6_round_trip_witness :
    (extract_state c6Cfg (blocksLog [c6b1, c6b2])).train.iteration =
      [c6b1, c6b2].map (fun b => Value.VInt b.iterV) ∧
    (extract_state c6Cfg (blocksLog [c6b1, c6b2])).train.env_steps =
      [c6b1, c6b2].map (fun b => Value.VInt b.envV) ∧
    (extract_state c6Cfg (blocksLog [c6b1, c6b2])).train.train_steps =
      [c6b1, c6b2].map (fun b => Value.VInt b.trainV) ∧
    (extract_state c6Cfg (blocksLog [c6b1, c6b2])).train.collect_time =
      [c6b1, c6b2].map (fun b => Value.VFloat b.collV) ∧
    (extract_state c6Cfg (blocksLog [c6b1, c6b2])).train.train_time =
      [c6b1, c6b2].map (fun b => Value.VFloat b.timeV) ∧
    (extract_state c6Cfg (blocksLog [c6b1, c6b2])).train.iteration.length =
      [c6b1, c6b2].length :=
  c6_round_trip c6Cfg [c6b1, c6b2] (by
    intro b hb
    rcases List.mem_cons.mp hb with rfl | hb
    · show WFBlock c6b1
      refine ⟨?_, ?_, ?_, ?_, ?_, ?_, ?_, ?_, ?_, ?_⟩ <;> decide
    rcases List.mem_cons.mp hb with rfl | hb
    · show WFBlock c6b2
      refine ⟨?_, ?_, ?_, ?_, ?_, ?_, ?_, ?_, ?_, ?_⟩ <;> decide
    · cases hb)

/-- C8: extraction is deterministic and repeatable — running `extract`'s
series extraction a second time over the same immutable log (with the same
configuration, on the state left by the first run) reproduces exactly the
same train and eval series, because the metric dicts are reset from the
constant registries before each scan. -/
theorem c8_idempotent (cfg : ExtractorCfg) (lines : List (List Char))
    (m0 : XMetrics) :
    extract_on cfg lines (extract_on cfg lines m0) = extract_on cfg lines m0 := by
  rw [extract_on_eq cfg lines (extract_on cfg lines m0), extract_on_eq cfg lines m0]
  by_cases hc : (get_regex_groups lines initXMetrics).eval.eval_time.length =
      (get_regex_groups lines initXMetrics).eval.eval_avg_return.length
  · rw [if_pos hc, if_pos hc]
  · rw [if_neg hc, if_neg hc]

/-- C9: the line preprocessor is pure; with the empty pattern configured it
is the identity, and with the shipped color pattern it removes every
non-overlapping color-code match, so a line with interleaved CSI sequences
cleans to — and is scanned exactly like — the hand-cleaned line. -/
theorem c9_preprocessor_pure (d cl : List Char) (h1 : Interleaved d cl)
    (h2 : noEsc cl = true) :
    (∀ l : List Char, clean_stream_cfg EMPTY_PATTERN l = l) ∧
    clean_stream_from_color_coding d = cl ∧
    (∀ st : XMetrics, process_line st d = process_line st cl) := by
  have hcl : clean_stream_from_color_coding d = cl := by
    rw [clean_stream_eq_dropColor, interleaved_dropColor d cl h1,
        dropColor_noEsc cl h2]
  refine ⟨fun l => ?_, hcl, fun st => ?_⟩
  · rw [clean_stream_cfg, if_pos rfl]
  · simp only [process_line, hcl, clean_stream_noEsc cl h2]

/-- Witness for C9 on a concrete dirty line. -/
theorem c9_preprocessor_pure_witness :
    (∀ l : List Char, clean_stream_cfg EMPTY_PATTERN l = l) ∧
    clean_stream_from_color_coding c9Dirty = c9Clean ∧
    (∀ st : XMetrics, process_line st c9Dirty = process_line st c9Clean) :=
  c9_preprocessor_pure c9Dirty c9Clean
    (Interleaved.strip ['0'] 'm' (by decide) (by decide)
      (interleaved_refl c9Clean (by decide)))
    (by decide)

/-- C10: for every log with no eval matches at all, extraction takes the
equal-counts branch (0 = 0): both eval series are empty, the derived eval
iteration index is the empty sequence, and the eval DataFrame is built
successfully as an empty (zero-row) table rather than being absent. -/
theorem c10_no_eval_empty_table (cfg : ExtractorCfg) (lines : List (List Char))
    (h : ∀ l ∈ lines,
      matchShaped evalTimePat (clean_stream_from_color_coding l) = none ∧
      matchShaped evalAvgReturnPat (clean_stream_from_color_coding l) = none) :
    (extract_state cfg lines).eval.eval_time = [] ∧
    (extract_state cfg lines).eval.eval_avg_return = [] ∧
    (extract_state cfg lines).eval.eval_time.length =
      (extract_state cfg lines).eval.eval_avg_return.length ∧
    (extract_state cfg lines).eval.iteration = some [] ∧
    buildDF (evalColumns (extract_state cfg lines).eval) =
      some [("eval_time", []), ("eval_avg_return", []), ("iteration", [])] := by
  have hs : (get_regex_groups lines (construct_metrics_dicts initXMetrics)).eval =
      ⟨[], [], none⟩ := by
    rw [show construct_metrics_dicts initXMetrics = initXMetrics from rfl,
        scan_no_eval lines h initXMetrics]
    rfl
  have he : (extract_state cfg lines).eval = ⟨[], [], some []⟩ := by
    rw [extract_state, extract_on, extract_reconcile]
    rw [hs]
    rw [if_pos rfl]
    simp [hs, reconcile_zero]
  rw [he]
  exact ⟨rfl, rfl, rfl, rfl, by decide⟩

/-- Witness for C10 on a concrete eval-free log. -/
theorem c10_no_eval_empty_table_witness :
    (extract_state c10Cfg c10Log).eval.eval_time = [] ∧
    (extract_state c10Cfg c10Log).eval.eval_avg_return = [] ∧
    (extract_state c10Cfg c10Log).eval.eval_time.length =
      (extract_state c10Cfg c10Log).eval.eval_avg_return.length ∧
    (extract_state c10Cfg c10Log).eval.iteration = some [] ∧
    buildDF (evalColumns (extract_state c10Cfg c10Log).eval) =
      some [("eval_time", []), ("eval_avg_return", []), ("iteration", [])] :=
  c10_no_eval_empty_table c10Cfg c10Log (by decide)

/-- C1 counterexample: on a concrete log whose train block is complete but
whose eval sub-series have lengths 3 and 2, `metric_dfs` yields no table at
all — so the train table is NOT still constructed, contrary to the claim —
and `extract` (with plotting enabled) raises while unpacking the missing
result. -/
theorem c1_counterexample :
    allSameLength (trainColumns (extract_state c1Cfg c1Log).train) = true ∧
    (extract_state c1Cfg c1Log).eval.eval_time.length = 3 ∧
    (extract_state c1Cfg c1Log).eval.eval_avg_return.length = 2 ∧
    metric_dfs (extract_state c1Cfg c1Log) = none ∧
    (extract c1Cfg c1Log).toOption = none := by
  refine ⟨by decide, by decide, by decide, by decide, by decide⟩

/-- C1 amended: when the eval sub-series lengths differ, eval table
construction fails, and the failure discards the train table as well —
`metric_dfs` returns nothing, even though the complete train dict alone
would have built a table. -/
theorem c1_mismatch_discards_both (m : XMetrics)
    (ht : allSameLength (trainColumns m.train) = true)
    (he : allSameLength (evalColumns m.eval) = false) :
    buildDF (trainColumns m.train) = some (trainColumns m.train) ∧
    metric_dfs m = none := by
  have hb : buildDF (trainColumns m.train) = some (trainColumns m.train) := by
    rw [buildDF, if_pos ht]
  refine ⟨hb, ?_⟩
  rw [metric_dfs, hb]
  rw [show buildDF (evalColumns m.eval) = none from by rw [buildDF, if_neg (by simp [he])]]

/-- Witness for the amended C1 on the concrete mismatched log. -/
theorem c1_mismatch_discards_both_witness :
    buildDF (trainColumns (extract_state c1Cfg c1Log).train) =
      some (trainColumns (extract_state c1Cfg c1Log).train) ∧
    metric_dfs (extract_state c1Cfg c1Log) = none :=
  c1_mismatch_discards_both (extract_state c1Cfg c1Log) (by decide) (by decide)

/-- C5 counterexample: with two input files, the first of which fails table
construction (plots enabled), the main loop processes NO run at all — the
second, well-formed run is never scanned and its results are not queryable,
even though extracting it alone would succeed. -/
theorem c5_counterexample :
    main_runs c5Cfg [c5BadLog, c5GoodLog] = [] ∧
    (extract c5Cfg c5GoodLog).toOption.isSome = true := by
  refine ⟨by decide, by decide⟩

/-- C5 amended: a raising run aborts the whole batch — when `extract` fails
on the first file, the single top-level exception handler of `__main__`
stops the loop, and none of the remaining runs is processed. -/
theorem c5_failure_aborts_batch (cfg : ExtractorCfg) (l : List (List Char))
    (ls : List (List (List Char))) (e : String)
    (h : extract cfg l = Except.error e) :
    main_runs cfg (l :: ls) = [] := by
  rw [main_runs, h]

/-- Witness for the amended C5 on the concrete two-file batch. -/
theorem c5_failure_aborts_batch_witness :
    main_runs c5Cfg (c5BadLog :: [c5GoodLog]) = [] :=
  c5_failure_aborts_batch c5Cfg c5BadLog [c5GoodLog]
    ("TypeError: cannot unpack non-iterable NoneType") (by rfl)
